import Mathlib

/-!
Verification of the 3ML block parser (src/block_parser.py).

The parser turns a line-oriented text document into a tree of nodes.  We give
a shallow embedding: the mutable stack of "currently open" nodes becomes a
`List Node` whose head is the top of the Python stack (`stack[-1]`) and whose
last element is the bottom (`stack[0]`, the Document).  Since the Python code
appends a freshly opened node to its parent's `children` list at open time and
then mutates the node in place through the stack reference, we instead keep
each open node as a frame holding the children accumulated so far, and attach
a node to its parent's child list at the moment it is popped (or at the final
fold at end of input).  All appends go through the top of the stack, so the
resulting trees coincide with the Python object graph.

Machine strings are modelled through `List Char`; Python's `str.isdigit` and
the whitespace classes are modelled on their ASCII fragment, matching the
behaviour of `int()` on the strings both accept.
-/

namespace ThreeML

/-- ASCII model of Python's whitespace class used by `str.split()`,
`str.rstrip()` and `str.strip()`. -/
def pyIsSpace (c : Char) : Bool :=
  c = ' ' || c = '\t' || c = '\n' || c = '\r' || c = '\x0b' || c = '\x0c'

/-- Line boundaries recognised by Python's `str.splitlines` (besides the
two-character sequence CRLF, which is handled separately). -/
def isLineBoundary (c : Char) : Bool :=
  c = '\n' || c = '\r' || c = '\x0b' || c = '\x0c' || c = '\x1c' ||
  c = '\x1d' || c = '\x1e' || c = '\x85' || c = '\u2028' || c = '\u2029'

/-- Worker for `pySplitlines`; `acc` holds the current line reversed. -/
def pySplitlinesGo : List Char → List Char → List String
  | [], acc => if acc.isEmpty then [] else [String.mk acc.reverse]
  | '\r' :: '\n' :: rest, acc => String.mk acc.reverse :: pySplitlinesGo rest []
  | c :: rest, acc =>
      if isLineBoundary c then String.mk acc.reverse :: pySplitlinesGo rest []
      else pySplitlinesGo rest (c :: acc)

/-- Model of `source.splitlines()` (block_parser.py line 121). -/
def pySplitlines (source : String) : List String :=
  pySplitlinesGo source.data []

/-- Model of `line.rstrip()` (block_parser.py line 126): drop trailing
whitespace. -/
def pyRstrip (s : String) : String :=
  String.mk (s.data.reverse.dropWhile pyIsSpace).reverse

/-- Model of `line.split(maxsplit=1)` (block_parser.py line 49): skip leading
whitespace, cut out the first whitespace-free word, skip the separating
whitespace run, and return the verbatim remainder when it is nonempty. -/
def pySplitMax1 (s : String) : List String :=
  let cs := s.data.dropWhile pyIsSpace
  if cs.isEmpty then []
  else
    let w := cs.takeWhile (fun c => !pyIsSpace c)
    let rest := (cs.dropWhile (fun c => !pyIsSpace c)).dropWhile pyIsSpace
    if rest.isEmpty then [String.mk w] else [String.mk w, String.mk rest]

/-- Model of `s[1:]` on a Python string. -/
def strDropFirst (s : String) : String :=
  String.mk s.data.tail

/-- The command word and argument of a directive line (block_parser.py lines
49-51): `parts = line.split(maxsplit=1); cmd = parts[0][1:];
arg = parts[1] if len(parts) > 1 else ""`.  The `[]` case cannot arise for a
line starting with the marker character. -/
def directiveParts (line : String) : String × String :=
  match pySplitMax1 line with
  | [] => ("", "")
  | [p0] => (strDropFirst p0, "")
  | p0 :: p1 :: _ => (strDropFirst p0, p1)

/-- Model of `line.startswith("#")` (block_parser.py line 127). -/
def startsWithHash (line : String) : Bool :=
  match line.data with
  | c :: _ => c = '#'
  | [] => false

/-- Model of `line.startswith("- ")` (block_parser.py line 111). -/
def startsWithDash (line : String) : Bool :=
  match line.data with
  | c1 :: c2 :: _ => c1 = '-' && c2 = ' '
  | _ => false

/-- ASCII model of Python's `str.isdigit` on a single character. -/
def pyIsDigit (c : Char) : Bool :=
  c = '0' || c = '1' || c = '2' || c = '3' || c = '4' ||
  c = '5' || c = '6' || c = '7' || c = '8' || c = '9'

/-- Decimal value of a digit string, the model of `int(...)` on the strings
accepted by the `isdigit` test (block_parser.py line 66). -/
def natOfDigits (ds : List Char) : Nat :=
  ds.foldl (fun n c => n * 10 + (c.toNat - '0'.toNat)) 0

/-- The AST node variants of block_parser.py lines 6-39.  Every variant
carries the inherited `children` list; `Document` additionally carries the
metadata mapping (an insertion-ordered association list, as a Python dict). -/
inductive Node where
  | Document (metadata : List (String × String)) (children : List Node)
  | Section (level : Nat) (title : String) (children : List Node)
  | Paragraph (text : String) (children : List Node)
  | ListBlock (items : List String) (children : List Node)
  | Definition (title : String) (children : List Node)
  | Theorem (title : String) (children : List Node)

/-- The single parser failure kind (block_parser.py lines 43-44).  The Python
exception's only payload is its message string; we keep the data that appears
in each format string as structured fields, and `ParseError.message` renders
the exact Python message. -/
inductive ParseError where
  | unexpectedEnd (lineno : Nat)
  | sectionEnd (lineno : Nat)
  | unknownCommand (lineno : Nat) (cmd : String)
  | badListItem (lineno : Nat)
  | unclosedBlock
deriving DecidableEq

/-- The exact message strings raised in block_parser.py lines 58, 60, 99,
112 and 135. -/
def ParseError.message : ParseError → String
  | .unexpectedEnd n => "Line " ++ toString n ++ ": unexpected #end"
  | .sectionEnd n => "Line " ++ toString n ++ ": sections do not use #end"
  | .unknownCommand n cmd => "Line " ++ toString n ++ ": unknown command #" ++ cmd
  | .badListItem n => "Line " ++ toString n ++ ": list items must start with '- '"
  | .unclosedBlock => "Unclosed block at end of file"

/-- The line number a failure carries, when it carries one. -/
def ParseError.lineno? : ParseError → Option Nat
  | .unexpectedEnd n => some n
  | .sectionEnd n => some n
  | .unknownCommand n _ => some n
  | .badListItem n => some n
  | .unclosedBlock => none

/-- Model of `node.children.append(c)`. -/
def appendChild : Node → Node → Node
  | .Document md ch, c => .Document md (ch ++ [c])
  | .Section l t ch, c => .Section l t (ch ++ [c])
  | .Paragraph s ch, c => .Paragraph s (ch ++ [c])
  | .ListBlock it ch, c => .ListBlock it (ch ++ [c])
  | .Definition t ch, c => .Definition t (ch ++ [c])
  | .Theorem t ch, c => .Theorem t (ch ++ [c])

/-- Model of Python dict assignment `d[k] = v`: overwrite in place when the
key is present, append otherwise. -/
def metaSet : List (String × String) → String → String → List (String × String)
  | [], k, v => [(k, v)]
  | (k', v') :: t, k, v =>
      if k' = k then (k, v) :: t else (k', v') :: metaSet t k v

/-- Dict lookup on the metadata association list. -/
def metaLookup : List (String × String) → String → Option String
  | [], _ => none
  | (k', v') :: t, k => if k' = k then some v' else metaLookup t k

/-- Constructor test matching `isinstance(n, Document)`. -/
def isDocumentB : Node → Bool
  | .Document _ _ => true
  | _ => false

/-- Constructor test matching `isinstance(n, Section)`. -/
def isSectionB : Node → Bool
  | .Section _ _ _ => true
  | _ => false

/-- Constructor test matching `isinstance(n, (Definition, Theorem, ListBlock))`
in the end-of-input validation (block_parser.py line 134). -/
def isExplicitContainer : Node → Bool
  | .ListBlock _ _ => true
  | .Definition _ _ => true
  | .Theorem _ _ => true
  | _ => false

/-- The while-loop guard of block_parser.py line 68 restricted to the node
itself: an open Section whose level is at least the newly requested level. -/
def isPoppable (level : Nat) : Node → Bool
  | .Section l _ _ => decide (level ≤ l)
  | _ => false

/-- The while loop of block_parser.py lines 68-69, with the top of the stack
held separately so the recursion is structural: pop while the stack has more
than one entry and the top is a Section of level at least `level`.  Popping
attaches the popped frame to its parent frame, which matches the Python code
where the popped node is already a child of the node below it. -/
def popSectionsGo (level : Nat) : Node → List Node → List Node
  | top, [] => [top]
  | top, p :: rest =>
      if isPoppable level top then popSectionsGo level (appendChild p top) rest
      else top :: p :: rest

/-- The implicit-close loop on a whole stack. -/
def popSections (level : Nat) : List Node → List Node
  | [] => []
  | top :: rest => popSectionsGo level top rest

/-- The command `s` with a digit tail: `cmd.startswith("s") and
cmd[1:].isdigit()` plus the `int` conversion (block_parser.py lines 65-66).
Python's `isdigit` is false on the empty string. -/
def sectionLevel? (cmd : String) : Option Nat :=
  match cmd.data with
  | c :: rest =>
      if c = 's' ∧ rest ≠ [] ∧ rest.all pyIsDigit = true then
        some (natOfDigits rest)
      else none
  | [] => none

/-- The directive dispatch of `_handle_command` (block_parser.py lines 53-99)
after the command word and argument have been extracted.  The empty-stack
cases are unreachable (the source would fail reading `stack[-1]` before any
dispatch); the invariant that the stack is never empty is proved below. -/
def handleCommandCore (cmd arg : String) (lineno : Nat) (stack : List Node) :
    Except ParseError (List Node) :=
  if cmd = "end" then
    if stack.length = 1 then .error (.unexpectedEnd lineno)
    else
      match stack with
      | .Section _ _ _ :: _ => .error (.sectionEnd lineno)
      | c :: p :: rest => .ok (appendChild p c :: rest)
      | _ => .error (.unexpectedEnd lineno)
  else
    match sectionLevel? cmd with
    | some level => .ok (.Section level arg [] :: popSections level stack)
    | none =>
      if cmd = "list" then .ok (.ListBlock [] [] :: stack)
      else if cmd = "def" then .ok (.Definition arg [] :: stack)
      else if cmd = "thm" then .ok (.Theorem arg [] :: stack)
      else
        match stack with
        | .Document md ch :: rest => .ok (.Document (metaSet md cmd arg) ch :: rest)
        | _ => .error (.unknownCommand lineno cmd)

/-- `_handle_command` (block_parser.py lines 48-99). -/
def handleCommand (line : String) (lineno : Nat) (stack : List Node) :
    Except ParseError (List Node) :=
  handleCommandCore (directiveParts line).1 (directiveParts line).2 lineno stack

/-- `_handle_text` (block_parser.py lines 104-115): skip blank lines; inside a
ListBlock require the item marker and append the remainder to the item list;
otherwise append a Paragraph to the current node. -/
def handleText (line : String) (lineno : Nat) (stack : List Node) :
    Except ParseError (List Node) :=
  if line.data.all pyIsSpace then .ok stack
  else
    match stack with
    | .ListBlock items ch :: rest =>
        if startsWithDash line then
          .ok (.ListBlock (items ++ [String.mk (line.data.drop 2)]) ch :: rest)
        else .error (.badListItem lineno)
    | top :: rest => .ok (appendChild top (.Paragraph line []) :: rest)
    | [] => .ok []

/-- One iteration of the main loop (block_parser.py lines 125-130): trim the
line's trailing whitespace, then dispatch on the marker character. -/
def processLine (stack : List Node) (lineno : Nat) (rawLine : String) :
    Except ParseError (List Node) :=
  if startsWithHash (pyRstrip rawLine) then
    handleCommand (pyRstrip rawLine) lineno stack
  else handleText (pyRstrip rawLine) lineno stack

/-- The main loop over all lines, numbering from `lineno` (block_parser.py
line 125 numbers from 1). -/
def processLines (stack : List Node) (lineno : Nat) :
    List String → Except ParseError (List Node)
  | [] => .ok stack
  | l :: ls =>
      match processLine stack lineno l with
      | .error e => .error e
      | .ok st' => processLines st' (lineno + 1) ls

/-- Folding the remaining open frames into the bottom of the stack; in the
Python code the open nodes are already attached to the tree, so returning
`doc` performs this implicitly. -/
def foldStackGo : Node → List Node → Node
  | top, [] => top
  | top, p :: rest => foldStackGo (appendChild p top) rest

/-- Fold a whole stack to its root. -/
def foldStack : List Node → Node
  | [] => .Document [] []
  | top :: rest => foldStackGo top rest

/-- `parse_blocks` (block_parser.py lines 120-138): split into lines, run the
main loop from a stack holding a fresh Document, then fail if any frame above
the bottom is an unclosed explicit container, and otherwise return the
Document.  In our frame representation the bottom of the stack is the LAST
list element, so Python's `stack[1:]` is `st.dropLast`. -/
def parse_blocks (source : String) : Except ParseError Node :=
  match processLines [.Document [] []] 1 (pySplitlines source) with
  | .error e => .error e
  | .ok st =>
      if st.dropLast.any isExplicitContainer then .error .unclosedBlock
      else .ok (foldStack st)

/-- Fold the top `k` frames of a stack into their parents, one at a time.
This is the specification-side description of what `k` iterations of the
implicit-close loop do to the stack. -/
def collapse : Nat → List Node → List Node
  | 0, st => st
  | k + 1, c :: p :: rest => collapse k (appendChild p c :: rest)
  | _ + 1, st => st

/-- The stack shape maintained by the parser: nonempty, the bottom frame is a
Document, and no other frame is a Document. -/
def onlyBottomDoc : List Node → Bool
  | [] => false
  | [x] => isDocumentB x
  | x :: y :: t => !isDocumentB x && onlyBottomDoc (y :: t)

/-- Level comparison used by the stack-ordering predicates: when both nodes
are Sections and the first is above the second on the stack, the deeper one
must have a strictly smaller level; any pair involving a non-Section is
unconstrained. -/
def levelsOK : Node → Node → Bool
  | .Section la _ _, .Section lb _ _ => decide (lb < la)
  | _, _ => true

/-- Adjacent-pair ordering of the open-context stack (top of stack first):
whenever a frame and the frame directly below it are both Sections, the
deeper one has a strictly smaller level. -/
def chainOrderedB : List Node → Bool
  | a :: b :: t => levelsOK a b && chainOrderedB (b :: t)
  | _ => true

/-- All-pairs ordering of the open-context stack (top of stack first): an
open Section has no open Section anywhere deeper in the stack with a level
greater than or equal to its own.  This is the literal reading of the
level-ordering claim. -/
def pairwiseOrderedB : List Node → Bool
  | [] => true
  | a :: t => t.all (levelsOK a) && pairwiseOrderedB t

mutual

/-- Checks that every ListBlock in a tree has an empty child sequence. -/
def listBlocksChildless : Node → Bool
  | .Document _ ch => listBlocksChildlessAll ch
  | .Section _ _ ch => listBlocksChildlessAll ch
  | .Paragraph _ ch => listBlocksChildlessAll ch
  | .ListBlock _ ch => ch.isEmpty && listBlocksChildlessAll ch
  | .Definition _ ch => listBlocksChildlessAll ch
  | .Theorem _ ch => listBlocksChildlessAll ch

/-- List version of `listBlocksChildless`. -/
def listBlocksChildlessAll : List Node → Bool
  | [] => true
  | n :: t => listBlocksChildless n && listBlocksChildlessAll t

end

mutual

/-- Checks that every Section in a tree has level at least 1. -/
def sectionLevelsGeOne : Node → Bool
  | .Document _ ch => sectionLevelsGeOneAll ch
  | .Section l _ ch => decide (1 ≤ l) && sectionLevelsGeOneAll ch
  | .Paragraph _ ch => sectionLevelsGeOneAll ch
  | .ListBlock _ ch => sectionLevelsGeOneAll ch
  | .Definition _ ch => sectionLevelsGeOneAll ch
  | .Theorem _ ch => sectionLevelsGeOneAll ch

/-- List version of `sectionLevelsGeOne`. -/
def sectionLevelsGeOneAll : List Node → Bool
  | [] => true
  | n :: t => sectionLevelsGeOne n && sectionLevelsGeOneAll t

end

/-! Helper lemmas: appending a child changes none of the shape tests. -/

theorem isDocumentB_appendChild (p c : Node) :
    isDocumentB (appendChild p c) = isDocumentB p := by
  cases p <;> rfl

theorem isSectionB_appendChild (p c : Node) :
    isSectionB (appendChild p c) = isSectionB p := by
  cases p <;> rfl

theorem isPoppable_appendChild (L : Nat) (p c : Node) :
    isPoppable L (appendChild p c) = isPoppable L p := by
  cases p <;> rfl

theorem levelsOK_appendChild_left (p c x : Node) :
    levelsOK (appendChild p c) x = levelsOK p x := by
  cases p <;> cases x <;> rfl

theorem levelsOK_appendChild_right (x p c : Node) :
    levelsOK x (appendChild p c) = levelsOK x p := by
  cases x <;> cases p <;> rfl

theorem levelsOK_of_not_poppable (L : Nat) (t : String) (ch : List Node)
    (x : Node) (h : isPoppable L x = false) :
    levelsOK (.Section L t ch) x = true := by
  cases x <;> simp_all [isPoppable, levelsOK]

theorem levelsOK_of_not_section (x y : Node) (h : isSectionB x = false) :
    levelsOK x y = true := by
  cases x <;> cases y <;> simp_all [isSectionB, levelsOK]

theorem isPoppable_false_of_document (L : Nat) (x : Node)
    (h : isDocumentB x = true) : isPoppable L x = false := by
  cases x <;> simp_all [isDocumentB, isPoppable]

/-! Helper lemmas: the stack-shape predicates under a pop-and-attach step. -/

theorem onlyBottomDoc_attach (c p : Node) (rest : List Node)
    (h : onlyBottomDoc (c :: p :: rest) = true) :
    onlyBottomDoc (appendChild p c :: rest) = true := by
  cases rest with
  | nil => simp_all [onlyBottomDoc, isDocumentB_appendChild]
  | cons y t => simp_all [onlyBottomDoc, isDocumentB_appendChild]

theorem chainOrderedB_attach (c p : Node) (rest : List Node)
    (h : chainOrderedB (c :: p :: rest) = true) :
    chainOrderedB (appendChild p c :: rest) = true := by
  cases rest with
  | nil => rfl
  | cons y t => simp_all [chainOrderedB, levelsOK_appendChild_left]

/-! Helper lemmas: the implicit-close loop. -/

theorem popSectionsGo_ne_nil (L : Nat) (top : Node) (rest : List Node) :
    popSectionsGo L top rest ≠ [] := by
  induction rest generalizing top with
  | nil => simp [popSectionsGo]
  | cons p rs ih =>
      simp only [popSectionsGo]
      split
      · exact ih _
      · simp

theorem popSectionsGo_onlyBottomDoc (L : Nat) (top : Node) (rest : List Node)
    (h : onlyBottomDoc (top :: rest) = true) :
    onlyBottomDoc (popSectionsGo L top rest) = true := by
  induction rest generalizing top with
  | nil => simpa [popSectionsGo] using h
  | cons p rs ih =>
      simp only [popSectionsGo]
      split
      · exact ih _ (onlyBottomDoc_attach _ _ _ h)
      · exact h

theorem popSectionsGo_chainOrderedB (L : Nat) (top : Node) (rest : List Node)
    (h : chainOrderedB (top :: rest) = true) :
    chainOrderedB (popSectionsGo L top rest) = true := by
  induction rest generalizing top with
  | nil => rfl
  | cons p rs ih =>
      simp only [popSectionsGo]
      split
      · exact ih _ (chainOrderedB_attach _ _ _ h)
      · exact h

theorem popSectionsGo_head_not_poppable (L : Nat) (top : Node)
    (rest : List Node) (h : onlyBottomDoc (top :: rest) = true) :
    isPoppable L ((popSectionsGo L top rest).headD (.Document [] [])) = false := by
  induction rest generalizing top with
  | nil =>
      simp only [popSectionsGo, List.headD]
      exact isPoppable_false_of_document L top (by simpa [onlyBottomDoc] using h)
  | cons p rs ih =>
      simp only [popSectionsGo]
      split
      · exact ih _ (onlyBottomDoc_attach _ _ _ h)
      · next hp => simpa using hp

/-! Helper lemmas: preservation of the stack invariant by each handler. -/

theorem onlyBottomDoc_push (x : Node) (st : List Node)
    (hx : isDocumentB x = false) (h : onlyBottomDoc st = true) :
    onlyBottomDoc (x :: st) = true := by
  cases st with
  | nil => simp [onlyBottomDoc] at h
  | cons y t => simp_all [onlyBottomDoc]

theorem chainOrderedB_push_not_section (x : Node) (st : List Node)
    (hx : isSectionB x = false) (h : chainOrderedB st = true) :
    chainOrderedB (x :: st) = true := by
  cases st with
  | nil => rfl
  | cons y t =>
      simp only [chainOrderedB, Bool.and_eq_true]
      exact ⟨levelsOK_of_not_section x y hx, h⟩

theorem handleCommandCore_inv (cmd arg : String) (n : Nat)
    (st st' : List Node) (hd : onlyBottomDoc st = true)
    (hc : chainOrderedB st = true)
    (h : handleCommandCore cmd arg n st = .ok st') :
    onlyBottomDoc st' = true ∧ chainOrderedB st' = true := by
  unfold handleCommandCore at h
  split at h
  · -- cmd = "end"
    split at h
    · cases h
    · split at h
      · cases h
      · cases h
        exact ⟨onlyBottomDoc_attach _ _ _ hd, chainOrderedB_attach _ _ _ hc⟩
      · cases h
  · -- other commands
    split at h
    · -- section directive
      next level hlev =>
        cases st with
        | nil => simp [onlyBottomDoc] at hd
        | cons top rest =>
            cases h
            have hgo_doc := popSectionsGo_onlyBottomDoc level top rest hd
            have hgo_chain := popSectionsGo_chainOrderedB level top rest hc
            have hgo_ne := popSectionsGo_ne_nil level top rest
            have hgo_head := popSectionsGo_head_not_poppable level top rest hd
            obtain ⟨g0, gs, hg⟩ := List.exists_cons_of_ne_nil hgo_ne
            rw [show popSections level (top :: rest) = popSectionsGo level top rest from rfl]
            rw [hg] at hgo_doc hgo_chain hgo_head ⊢
            constructor
            · exact onlyBottomDoc_push _ _ rfl hgo_doc
            · simp only [chainOrderedB, Bool.and_eq_true]
              refine ⟨?_, hgo_chain⟩
              exact levelsOK_of_not_poppable level arg [] g0 (by simpa using hgo_head)
    · -- list / def / thm / metadata
      split at h
      · cases h
        exact ⟨onlyBottomDoc_push _ _ rfl hd, chainOrderedB_push_not_section _ _ rfl hc⟩
      · split at h
        · cases h
          exact ⟨onlyBottomDoc_push _ _ rfl hd, chainOrderedB_push_not_section _ _ rfl hc⟩
        · split at h
          · cases h
            exact ⟨onlyBottomDoc_push _ _ rfl hd, chainOrderedB_push_not_section _ _ rfl hc⟩
          · split at h
            · next md ch rest =>
                cases h
                cases rest with
                | nil => exact ⟨rfl, rfl⟩
                | cons y t =>
                    simp [onlyBottomDoc, isDocumentB] at hd
            · cases h

theorem handleText_inv (line : String) (n : Nat) (st st' : List Node)
    (hd : onlyBottomDoc st = true) (hc : chainOrderedB st = true)
    (h : handleText line n st = .ok st') :
    onlyBottomDoc st' = true ∧ chainOrderedB st' = true := by
  unfold handleText at h
  split at h
  · cases h; exact ⟨hd, hc⟩
  · split at h
    · next items ch rest =>
        split at h
        · cases h
          cases rest with
          | nil => simp_all [onlyBottomDoc, isDocumentB]
          | cons y t => simp_all [onlyBottomDoc, isDocumentB, chainOrderedB, levelsOK]
        · cases h
    · next top rest _ =>
        cases h
        constructor
        · cases rest with
          | nil => simpa [onlyBottomDoc, isDocumentB_appendChild] using hd
          | cons y t => simp_all [onlyBottomDoc, isDocumentB_appendChild]
        · cases rest with
          | nil => rfl
          | cons y t => simp_all [chainOrderedB, levelsOK_appendChild_left]
    · cases h
      simp [onlyBottomDoc] at hd

theorem processLine_inv (st : List Node) (n : Nat) (l : String)
    (st' : List Node) (hd : onlyBottomDoc st = true)
    (hc : chainOrderedB st = true) (h : processLine st n l = .ok st') :
    onlyBottomDoc st' = true ∧ chainOrderedB st' = true := by
  unfold processLine at h
  split at h
  · exact handleCommandCore_inv _ _ n st st' hd hc h
  · exact handleText_inv _ n st st' hd hc h

theorem processLines_inv (lines : List String) (st : List Node) (n : Nat)
    (st' : List Node) (hd : onlyBottomDoc st = true)
    (hc : chainOrderedB st = true)
    (h : processLines st n lines = .ok st') :
    onlyBottomDoc st' = true ∧ chainOrderedB st' = true := by
  induction lines generalizing st n with
  | nil => cases h; exact ⟨hd, hc⟩
  | cons l ls ih =>
      unfold processLines at h
      split at h
      · cases h
      · next st1 hline =>
          obtain ⟨hd1, hc1⟩ := processLine_inv st n l st1 hd hc hline
          exact ih st1 (n + 1) hd1 hc1 h

theorem foldStackGo_isDocumentB (top : Node) (rest : List Node)
    (h : onlyBottomDoc (top :: rest) = true) :
    isDocumentB (foldStackGo top rest) = true := by
  induction rest generalizing top with
  | nil => simpa [foldStackGo, onlyBottomDoc] using h
  | cons p rs ih =>
      simp only [foldStackGo]
      exact ih _ (onlyBottomDoc_attach _ _ _ h)

/-! Helper lemmas: characterising the implicit-close loop by the number of
frames it pops. -/

theorem popSectionsGo_collapse (L : Nat) (rest : List Node) :
    ∀ top : Node, ∃ k, k ≤ rest.length ∧
      (((top :: rest).take k).all (isPoppable L)) = true ∧
      (k < rest.length →
        isPoppable L ((top :: rest).getD k (.Document [] [])) = false) ∧
      popSectionsGo L top rest = collapse k (top :: rest) := by
  induction rest with
  | nil =>
      intro top
      exact ⟨0, Nat.le_refl 0, by simp, by intro h; simp at h, rfl⟩
  | cons p rs ih =>
      intro top
      by_cases hp : isPoppable L top = true
      · obtain ⟨k, hk1, hk2, hk3, hk4⟩ := ih (appendChild p top)
        refine ⟨k + 1, by simpa using Nat.succ_le_succ hk1, ?_, ?_, ?_⟩
        · cases k with
          | zero => simpa using hp
          | succ k' =>
              simp only [List.take_succ_cons, List.all_cons, Bool.and_eq_true,
                isPoppable_appendChild] at hk2 ⊢
              exact ⟨hp, hk2.1, hk2.2⟩
        · intro hlt
          have hlt' : k < rs.length := by simpa using Nat.lt_of_succ_lt_succ hlt
          have h3 := hk3 hlt'
          cases k with
          | zero => simpa [List.getD_cons_zero, List.getD_cons_succ,
              isPoppable_appendChild] using h3
          | succ k' => simpa [List.getD_cons_succ] using h3
        · simp only [popSectionsGo, if_pos hp]
          rw [hk4]
          rfl
      · have hp' : isPoppable L top = false := by simpa using hp
        refine ⟨0, Nat.zero_le _, by simp, ?_, ?_⟩
        · intro _
          simpa [List.getD_cons_zero] using hp'
        · simp [popSectionsGo, hp', collapse]

theorem popSections_spec (L : Nat) (st : List Node) (hne : st ≠ []) :
    ∃ k, k + 1 ≤ st.length ∧ ((st.take k).all (isPoppable L)) = true ∧
      (k + 1 < st.length → isPoppable L (st.getD k (.Document [] [])) = false) ∧
      popSections L st = collapse k st := by
  cases st with
  | nil => exact absurd rfl hne
  | cons top rest =>
      obtain ⟨k, h1, h2, h3, h4⟩ := popSectionsGo_collapse L rest top
      refine ⟨k, ?_, h2, ?_, h4⟩
      · simp only [List.length_cons]
        omega
      · intro hlt
        exact h3 (by simp only [List.length_cons] at hlt; omega)

/-! Helper lemmas: dispatch of the command handler under each hypothesis on
the command word. -/

theorem handleCommand_section_eq (line : String) (ds : List Char)
    (lineno : Nat) (stack : List Node)
    (hcmd : (directiveParts line).1 = String.mk ('s' :: ds))
    (hds : ds ≠ []) (hdig : ds.all pyIsDigit = true) :
    handleCommand line lineno stack =
      .ok (.Section (natOfDigits ds) (directiveParts line).2 []
        :: popSections (natOfDigits ds) stack) := by
  have hne : ¬ ((String.mk ('s' :: ds) : String) = "end") := by
    intro h
    have h2 := congrArg String.data h
    rw [show (String.mk ('s' :: ds)).data = 's' :: ds from rfl] at h2
    rw [show ("end" : String).data = ['e', 'n', 'd'] from rfl] at h2
    injection h2 with hh _
    exact absurd hh (by decide)
  have hsec : sectionLevel? (String.mk ('s' :: ds)) = some (natOfDigits ds) := by
    simp [sectionLevel?, hds, hdig]
  unfold handleCommand
  rw [hcmd]
  unfold handleCommandCore
  rw [if_neg hne, hsec]

theorem handleCommand_other_eq (line : String) (lineno : Nat)
    (stack : List Node) (hend : (directiveParts line).1 ≠ "end")
    (hsec : sectionLevel? (directiveParts line).1 = none)
    (hlist : (directiveParts line).1 ≠ "list")
    (hdef : (directiveParts line).1 ≠ "def")
    (hthm : (directiveParts line).1 ≠ "thm") :
    handleCommand line lineno stack =
      match stack with
      | .Document md ch :: rest =>
          .ok (.Document (metaSet md (directiveParts line).1
            (directiveParts line).2) ch :: rest)
      | _ => .error (.unknownCommand lineno (directiveParts line).1) := by
  unfold handleCommand handleCommandCore
  rw [if_neg hend, hsec, if_neg hlist, if_neg hdef, if_neg hthm]

/-! Helper lemmas: metadata assignment is dict update. -/

theorem metaLookup_metaSet_self (m : List (String × String)) (k v : String) :
    metaLookup (metaSet m k v) k = some v := by
  induction m with
  | nil => simp [metaSet, metaLookup]
  | cons hd t ih =>
      obtain ⟨k', v'⟩ := hd
      by_cases h : k' = k <;> simp [metaSet, metaLookup, h, ih]

theorem metaLookup_metaSet_other (m : List (String × String))
    (k v k' : String) (hne : k' ≠ k) :
    metaLookup (metaSet m k v) k' = metaLookup m k' := by
  induction m with
  | nil => simp [metaSet, metaLookup, Ne.symm hne]
  | cons hd t ih =>
      obtain ⟨ka, va⟩ := hd
      by_cases h : ka = k
      · subst h
        simp [metaSet, metaLookup, Ne.symm hne]
      · by_cases h2 : ka = k'
        · subst h2
          simp [metaSet, metaLookup, h]
        · simp [metaSet, metaLookup, h, h2, ih]

/-! Helper lemmas: every failure raised while a line is being processed
carries that line's number. -/

theorem handleCommandCore_error_lineno (cmd arg : String) (n : Nat)
    (st : List Node) (e : ParseError)
    (h : handleCommandCore cmd arg n st = .error e) :
    e.lineno? = some n := by
  unfold handleCommandCore at h
  split at h
  · split at h
    · cases h; rfl
    · split at h
      · cases h; rfl
      · cases h
      · cases h; rfl
  · split at h
    · cases h
    · split at h
      · cases h
      · split at h
        · cases h
        · split at h
          · cases h
          · split at h
            · cases h
            · cases h; rfl

theorem handleText_error_lineno (line : String) (n : Nat) (st : List Node)
    (e : ParseError) (h : handleText line n st = .error e) :
    e.lineno? = some n := by
  unfold handleText at h
  split at h
  · cases h
  · split at h
    · split at h
      · cases h
      · cases h; rfl
    · cases h
    · cases h

/-! Helper lemmas: digit strings and their decimal value. -/

theorem digitVal_pos (c : Char) (hdg : pyIsDigit c = true) (hne : c ≠ '0') :
    1 ≤ c.toNat - '0'.toNat := by
  simp only [pyIsDigit, Bool.or_eq_true, decide_eq_true_eq] at hdg
  rcases hdg with ((((((((h | h) | h) | h) | h) | h) | h) | h) | h) | h <;>
    subst h <;>
    first
    | exact absurd rfl hne
    | decide

theorem natOfDigits_all_zero (ds : List Char) (h : ∀ c ∈ ds, c = '0') :
    natOfDigits ds = 0 := by
  unfold natOfDigits
  induction ds with
  | nil => rfl
  | cons c t ih =>
      have hc : c = '0' := h c (List.mem_cons_self c t)
      subst hc
      simpa using ih (fun c hc => h c (List.mem_cons_of_mem _ hc))

theorem natOfDigits_pos_aux (ds : List Char) : ∀ a : Nat,
    (1 ≤ a ∨ ∃ c ∈ ds, pyIsDigit c = true ∧ c ≠ '0') →
    1 ≤ ds.foldl (fun n c => n * 10 + (c.toNat - '0'.toNat)) a := by
  induction ds with
  | nil =>
      intro a h
      rcases h with h | ⟨c, hc, _⟩
      · exact h
      · simp at hc
  | cons d t ih =>
      intro a h
      simp only [List.foldl_cons]
      rcases h with h | ⟨c, hc, hdg, hne⟩
      · exact ih (a * 10 + (d.toNat - '0'.toNat)) (Or.inl (by omega))
      · rcases List.mem_cons.mp hc with rfl | hct
        · have h1 := digitVal_pos c hdg hne
          exact ih (a * 10 + (c.toNat - '0'.toNat)) (Or.inl (by omega))
        · exact ih (a * 10 + (d.toNat - '0'.toNat)) (Or.inr ⟨c, hct, hdg, hne⟩)

theorem natOfDigits_pos_iff (ds : List Char) (hdig : ds.all pyIsDigit = true) :
    1 ≤ natOfDigits ds ↔ ¬ (∀ c ∈ ds, c = '0') := by
  constructor
  · intro hpos hall
    rw [natOfDigits_all_zero ds hall] at hpos
    omega
  · intro hnall
    push_neg at hnall
    obtain ⟨c, hmem, hne⟩ := hnall
    have hdg : pyIsDigit c = true := by
      have := List.all_eq_true.mp hdig
      simpa using this c hmem
    exact natOfDigits_pos_aux ds 0 (Or.inr ⟨c, hmem, hdg, hne⟩)

/-- Claim C1: a directive whose command word is the letter s followed by one
or more digits first pops from the open-context stack every Section whose
level is at least the new level — the popped frames are exactly a maximal run
counted by some k, which never reaches the bottom Document (k + 1 is at most
the stack length) and stops before any non-poppable frame — and then pushes a
new Section carrying the parsed level and the directive argument as title
onto the resulting stack (in this embedding a popped or closed frame is
attached as a child of the frame below it, so the pushed Section becomes a
child of the new top of stack when it is closed). -/
theorem c1_section_directive (line : String) (ds : List Char) (lineno : Nat)
    (stack : List Node) (hne : stack ≠ [])
    (hcmd : (directiveParts line).1 = String.mk ('s' :: ds))
    (hds : ds ≠ []) (hdig : ds.all pyIsDigit = true) :
    ∃ k, k + 1 ≤ stack.length ∧
      ((stack.take k).all (isPoppable (natOfDigits ds))) = true ∧
      (k + 1 < stack.length →
        isPoppable (natOfDigits ds) (stack.getD k (.Document [] [])) = false) ∧
      handleCommand line lineno stack =
        .ok (.Section (natOfDigits ds) (directiveParts line).2 []
          :: collapse k stack) := by
  obtain ⟨k, h1, h2, h3, h4⟩ := popSections_spec (natOfDigits ds) stack hne
  refine ⟨k, h1, h2, h3, ?_⟩
  rw [handleCommand_section_eq line ds lineno stack hcmd hds hdig, h4]

/-- Witness for C1 at the directive line with command word s2 on a stack
holding an open level-1 Section over the Document. -/
theorem c1_section_directive_witness :
    ∃ k, k + 1 ≤ ([Node.Section 1 "b" [], Node.Document [] []] : List Node).length ∧
      ((([Node.Section 1 "b" [], Node.Document [] []] : List Node).take k).all
        (isPoppable (natOfDigits ['2']))) = true ∧
      (k + 1 < ([Node.Section 1 "b" [], Node.Document [] []] : List Node).length →
        isPoppable (natOfDigits ['2'])
          (([Node.Section 1 "b" [], Node.Document [] []] : List Node).getD k
            (.Document [] [])) = false) ∧
      handleCommand "#s2 T" 5 [Node.Section 1 "b" [], Node.Document [] []] =
        .ok (.Section (natOfDigits ['2']) (directiveParts "#s2 T").2 []
          :: collapse k [Node.Section 1 "b" [], Node.Document [] []]) :=
  c1_section_directive "#s2 T" ['2'] 5
    [Node.Section 1 "b" [], Node.Document [] []] (by simp) rfl (by simp) rfl

/-- Claim C2 is refuted: the literal all-ancestors reading of the
level-ordering invariant fails on a reachable stack.  After the three lines
s2 / def / s1 the stack (top first) holds a level-1 Section above a
Definition above a level-2 Section, so the level-1 Section has a Section
ancestor of level 2 on the stack. -/
theorem c2_counterexample :
    processLines [Node.Document [] []] 1
      (pySplitlines "#s2 A\n#def D\n#s1 B") =
      .ok [Node.Section 1 "B" [], Node.Definition "D" [],
        Node.Section 2 "A" [], Node.Document [] []] ∧
    pairwiseOrderedB [Node.Section 1 "B" [], Node.Definition "D" [],
      Node.Section 2 "A" [], Node.Document [] []] = false :=
  ⟨rfl, rfl⟩

/-- Claim C2 (amended): at every point during a parse the open-context stack
is level-ordered between adjacent frames — whenever an open Section sits
directly above another open Section on the stack, the deeper one has a
strictly smaller level.  Ordering across an intervening explicit container
(Definition/Theorem/ListBlock) is not guaranteed. -/
theorem c2_stack_chain_ordered (lines : List String) (n : Nat)
    (st : List Node)
    (h : processLines [Node.Document [] []] n lines = .ok st) :
    chainOrderedB st = true :=
  (processLines_inv lines [Node.Document [] []] n st rfl rfl h).2

/-- Witness for the amended C2 on the one-line input opening a Section. -/
theorem c2_stack_chain_ordered_witness :
    chainOrderedB [Node.Section 1 "A" [], Node.Document [] []] = true :=
  c2_stack_chain_ordered (pySplitlines "#s1 A") 1
    [Node.Section 1 "A" [], Node.Document [] []] rfl

/-- Claim C3: an end directive fails with unexpectedEnd (message carrying
that line's number) when the stack holds only the Document, fails with
sectionEnd when the top of stack is a Section, and otherwise pops exactly
the top element (attaching it to its parent frame); in particular the input
whose fourth line issues a second end after the Definition is closed fails
with unexpectedEnd at line 4. -/
theorem c3_end_directive (line : String) (lineno : Nat) (stack : List Node)
    (hcmd : (directiveParts line).1 = "end") :
    (stack.length = 1 →
      handleCommand line lineno stack = .error (.unexpectedEnd lineno)) ∧
    (∀ l t ch rest, stack.length ≠ 1 → stack = .Section l t ch :: rest →
      handleCommand line lineno stack = .error (.sectionEnd lineno)) ∧
    (∀ c p rest, stack = c :: p :: rest → isSectionB c = false →
      handleCommand line lineno stack = .ok (appendChild p c :: rest)) ∧
    ParseError.message (.unexpectedEnd lineno) =
      "Line " ++ toString lineno ++ ": unexpected #end" ∧
    parse_blocks "#def D\nx\n#end\n#end" = .error (.unexpectedEnd 4) := by
  refine ⟨?_, ?_, ?_, rfl, rfl⟩
  · intro hlen
    unfold handleCommand
    rw [hcmd]
    unfold handleCommandCore
    rw [if_pos rfl, if_pos hlen]
  · intro l t ch rest hlen hst
    subst hst
    unfold handleCommand
    rw [hcmd]
    unfold handleCommandCore
    rw [if_pos rfl, if_neg hlen]
    cases rest with
    | nil => exact absurd rfl hlen
    | cons y ys => rfl
  · intro c p rest hst hsec
    subst hst
    unfold handleCommand
    rw [hcmd]
    unfold handleCommandCore
    rw [if_pos rfl, if_neg (by simp)]
    cases c <;> first | rfl | simp [isSectionB] at hsec

/-- Witness for C3: an end directive at document scope fails with
unexpectedEnd at that line. -/
theorem c3_end_directive_witness :
    handleCommand "#end" 4 [Node.Document [] []] =
      .error (.unexpectedEnd 4) :=
  (c3_end_directive "#end" 4 [Node.Document [] []] rfl).1 rfl

/-- Claim C4: with a ListBlock on top of the stack, a non-blank prose line
starting with the two-character item marker has its remainder appended to
the item sequence, and any other non-blank prose line fails with the
badListItem error at that line; consequently the four-line list input yields
one ListBlock child with items a and b, and a bare prose line inside an open
list fails at its line number. -/
theorem c4_list_items :
    (∀ (line : String) (lineno : Nat) (items : List String)
      (ch rest : List Node), line.data.all pyIsSpace = false →
      handleText line lineno (.ListBlock items ch :: rest) =
        (if startsWithDash line then
          .ok (.ListBlock (items ++ [String.mk (line.data.drop 2)]) ch :: rest)
        else .error (.badListItem lineno))) ∧
    parse_blocks "#list\n- a\n- b\n#end" =
      .ok (.Document [] [.ListBlock ["a", "b"] []]) ∧
    parse_blocks "#list\nx" = .error (.badListItem 2) := by
  refine ⟨?_, rfl, rfl⟩
  intro line lineno items ch rest hnb
  unfold handleText
  rw [if_neg (by simp [hnb])]

/-- Witness for C4 on the prose line x inside an open list. -/
theorem c4_list_items_witness :
    handleText "x" 2 [Node.ListBlock [] [], Node.Document [] []] =
      (if startsWithDash "x" then
        .ok (.ListBlock ([] ++ [String.mk ("x".data.drop 2)]) []
          :: [Node.Document [] []])
      else .error (.badListItem 2)) :=
  c4_list_items.1 "x" 2 [] [] [Node.Document [] []] rfl

/-- Claim C5 is refuted: the unclosed-block failure carries no line number.
On the single-line input opening a list and never closing it, the parse
fails with unclosedBlock, whose structured line number is none and whose
message is the fixed string without any line number. -/
theorem c5_counterexample :
    parse_blocks "#list" = .error .unclosedBlock ∧
    ParseError.lineno? .unclosedBlock = none ∧
    ParseError.message .unclosedBlock = "Unclosed block at end of file" :=
  ⟨rfl, rfl, rfl⟩

/-- Claim C5 (amended): every failure raised while a line is being processed
carries that line's 1-based number; an explicit container still open at end
of input makes the parse fail with the unclosedBlock failure, which carries
no line number (its message is the fixed string). -/
theorem c5_line_numbers :
    (∀ (line : String) (n : Nat) (st : List Node) (e : ParseError),
      handleCommand line n st = .error e → e.lineno? = some n) ∧
    (∀ (line : String) (n : Nat) (st : List Node) (e : ParseError),
      handleText line n st = .error e → e.lineno? = some n) ∧
    (∀ (source : String) (st : List Node),
      processLines [Node.Document [] []] 1 (pySplitlines source) = .ok st →
      st.dropLast.any isExplicitContainer = true →
      parse_blocks source = .error .unclosedBlock) ∧
    ParseError.lineno? .unclosedBlock = none ∧
    ParseError.message .unclosedBlock = "Unclosed block at end of file" := by
  refine ⟨?_, handleText_error_lineno, ?_, rfl, rfl⟩
  · intro line n st e h
    exact handleCommandCore_error_lineno _ _ n st e h
  · intro source st h hopen
    unfold parse_blocks
    rw [h]
    simp [hopen]

/-- Witness for the amended C5 at a failing end directive on line 3. -/
theorem c5_line_numbers_witness :
    ParseError.lineno? (.unexpectedEnd 3) = some 3 :=
  c5_line_numbers.1 "#end" 3 [Node.Document [] []] (.unexpectedEnd 3) rfl

/-- Claim C6: a directive whose command word is none of end, s-digits, list,
def, thm is a metadata assignment exactly when the top of stack is the
Document — it stores the command word and argument into the metadata,
overwriting any prior value for that key and leaving other keys unchanged —
and fails with unknownCommand at that line whenever the top of stack is not
the Document. -/
theorem c6_metadata_directive (line : String) (lineno : Nat)
    (stack : List Node)
    (hend : (directiveParts line).1 ≠ "end")
    (hsec : sectionLevel? (directiveParts line).1 = none)
    (hlist : (directiveParts line).1 ≠ "list")
    (hdef : (directiveParts line).1 ≠ "def")
    (hthm : (directiveParts line).1 ≠ "thm") :
    (∀ md ch rest, stack = .Document md ch :: rest →
      handleCommand line lineno stack =
        .ok (.Document (metaSet md (directiveParts line).1
          (directiveParts line).2) ch :: rest) ∧
      metaLookup (metaSet md (directiveParts line).1 (directiveParts line).2)
        (directiveParts line).1 = some (directiveParts line).2 ∧
      (∀ k, k ≠ (directiveParts line).1 →
        metaLookup (metaSet md (directiveParts line).1
          (directiveParts line).2) k = metaLookup md k)) ∧
    (∀ top rest, stack = top :: rest → isDocumentB top = false →
      handleCommand line lineno stack =
        .error (.unknownCommand lineno (directiveParts line).1)) := by
  have hdisp := handleCommand_other_eq line lineno stack hend hsec hlist hdef hthm
  constructor
  · intro md ch rest hst
    subst hst
    refine ⟨?_, metaLookup_metaSet_self md _ _,
      fun k hk => metaLookup_metaSet_other md _ _ k hk⟩
    rw [hdisp]
  · intro top rest hst htop
    subst hst
    rw [hdisp]
    cases top <;> first | rfl | simp [isDocumentB] at htop

/-- Witness for C6: an author directive at document scope stores the
metadata entry. -/
theorem c6_metadata_directive_witness :
    handleCommand "#author Jane" 1 [Node.Document [] []] =
      .ok (.Document (metaSet [] (directiveParts "#author Jane").1
        (directiveParts "#author Jane").2) [] :: ([] : List Node)) :=
  ((c6_metadata_directive "#author Jane" 1 [Node.Document [] []]
    (by decide) rfl (by decide) (by decide) (by decide)).1 [] [] [] rfl).1

/-- Claim C7 is refuted: directives can append child nodes to an open
ListBlock.  Opening a Definition inside an open list and closing both
succeeds, and the returned ListBlock has the Definition in its child
sequence, so not every ListBlock in a returned tree has empty children. -/
theorem c7_counterexample :
    parse_blocks "#list\n#def D\n#end\n#end" =
      .ok (.Document [] [.ListBlock [] [.Definition "D" []]]) ∧
    listBlocksChildless
      (.Document [] [.ListBlock [] [.Definition "D" []]]) = false :=
  ⟨rfl, rfl⟩

/-- Claim C7 (amended): while a ListBlock is open, prose-line handling never
appends to its child sequence — a blank line leaves the stack unchanged, a
marker line appends only to the item sequence (children unchanged), and any
other line is rejected; directive lines, however, may append child nodes to
an open ListBlock. -/
theorem c7_list_prose_no_children (line : String) (lineno : Nat)
    (items : List String) (ch rest : List Node) :
    (line.data.all pyIsSpace = true →
      handleText line lineno (.ListBlock items ch :: rest) =
        .ok (.ListBlock items ch :: rest)) ∧
    (line.data.all pyIsSpace = false → startsWithDash line = true →
      handleText line lineno (.ListBlock items ch :: rest) =
        .ok (.ListBlock (items ++ [String.mk (line.data.drop 2)]) ch :: rest)) ∧
    (line.data.all pyIsSpace = false → startsWithDash line = false →
      handleText line lineno (.ListBlock items ch :: rest) =
        .error (.badListItem lineno)) := by
  refine ⟨?_, ?_, ?_⟩
  · intro hb
    simp [handleText, hb]
  · intro hb hd
    simp [handleText, hb, hd]
  · intro hb hd
    simp [handleText, hb, hd]

/-- Witness for the amended C7 on a marker line appending an item. -/
theorem c7_list_prose_no_children_witness :
    handleText "- a" 7 [Node.ListBlock ["x"] [], Node.Document [] []] =
      .ok (.ListBlock (["x"] ++ [String.mk ("- a".data.drop 2)]) []
        :: [Node.Document [] []]) :=
  (c7_list_prose_no_children "- a" 7 ["x"] [] [Node.Document [] []]).2.1 rfl rfl

/-- Claim C8 is refuted: the directive s0 is accepted and creates a Section
with level 0, so not every Section in a returned tree has level at least
one. -/
theorem c8_counterexample :
    parse_blocks "#s0 T" = .ok (.Document [] [.Section 0 "T" []]) ∧
    sectionLevelsGeOne (.Document [] [.Section 0 "T" []]) = false :=
  ⟨rfl, rfl⟩

/-- Claim C8 (amended): a section directive creates a Section whose level is
the decimal value of its digit string, and that level is at least 1 exactly
when the digit string contains a nonzero digit (an all-zero digit string
such as s0 yields level 0). -/
theorem c8_section_level (line : String) (ds : List Char) (lineno : Nat)
    (stack : List Node)
    (hcmd : (directiveParts line).1 = String.mk ('s' :: ds))
    (hds : ds ≠ []) (hdig : ds.all pyIsDigit = true) :
    handleCommand line lineno stack =
      .ok (.Section (natOfDigits ds) (directiveParts line).2 []
        :: popSections (natOfDigits ds) stack) ∧
    (1 ≤ natOfDigits ds ↔ ¬ (∀ c ∈ ds, c = '0')) :=
  ⟨handleCommand_section_eq line ds lineno stack hcmd hds hdig,
    natOfDigits_pos_iff ds hdig⟩

/-- Witness for the amended C8 at the s0 directive. -/
theorem c8_section_level_witness :
    handleCommand "#s0 T" 1 [Node.Document [] []] =
      .ok (.Section (natOfDigits ['0']) (directiveParts "#s0 T").2 []
        :: popSections (natOfDigits ['0']) [Node.Document [] []]) ∧
    (1 ≤ natOfDigits ['0'] ↔ ¬ (∀ c ∈ ['0'], c = '0')) :=
  c8_section_level "#s0 T" ['0'] 1 [Node.Document [] []] rfl (by simp) rfl

/-- Claim C9: parsing is deterministic — the parse operation is a function
of the input string, so two invocations on the same string are equal, and
two successful results for the same string are structurally equal trees. -/
theorem c9_deterministic (source : String) :
    parse_blocks source = parse_blocks source ∧
    (∀ t t', parse_blocks source = .ok t → parse_blocks source = .ok t' →
      t = t') := by
  refine ⟨rfl, ?_⟩
  intro t t' h h'
  rw [h] at h'
  exact Except.ok.inj h'

/-- Witness for C9 on a concrete valid input. -/
theorem c9_deterministic_witness :
    (Node.Document [] [Node.Section 1 "A" []]) =
      (Node.Document [] [Node.Section 1 "A" []]) :=
  (c9_deterministic "#s1 A").2 (Node.Document [] [Node.Section 1 "A" []])
    (Node.Document [] [Node.Section 1 "A" []]) rfl rfl

/-- Claim C10: throughout every parse the open-context stack is nonempty,
its bottom element is a Document and no other frame is a Document (so every
access to the top of the stack is safe, no handler pops the Document and
none pushes a second one), and on success the returned tree is that bottom
Document. -/
theorem c10_stack_document_bottom :
    (∀ (lines : List String) (n : Nat) (st : List Node),
      processLines [Node.Document [] []] n lines = .ok st →
      onlyBottomDoc st = true) ∧
    (∀ (source : String) (tree : Node),
      parse_blocks source = .ok tree → isDocumentB tree = true) := by
  constructor
  · intro lines n st h
    exact (processLines_inv lines [Node.Document [] []] n st rfl rfl h).1
  · intro source tree h
    unfold parse_blocks at h
    split at h
    · cases h
    · next st hst =>
        split at h
        · cases h
        · cases h
          have hd := (processLines_inv _ [Node.Document [] []] 1 st rfl rfl hst).1
          cases st with
          | nil => simp [onlyBottomDoc] at hd
          | cons top rest => exact foldStackGo_isDocumentB top rest hd

/-- Witness for C10 on the one-line input opening a Section. -/
theorem c10_stack_document_bottom_witness :
    onlyBottomDoc [Node.Section 1 "A" [], Node.Document [] []] = true :=
  c10_stack_document_bottom.1 (pySplitlines "#s1 A") 1
    [Node.Section 1 "A" [], Node.Document [] []] rfl

end ThreeML
